import Mathlib

/-!
Verification development for the `rust-openstack` HTTP response pipeline
(`src/http.rs`) and the Compute v2 protocol enumerations
(`src/compute/v2/protocol.rs`).

The HTTP pipeline is a poll-driven state machine: `ApiResponse` wraps an
in-flight transport operation and validates the status code; `ApiResult`
wraps an `ApiResponse` plus an optional body accumulator (`Concat2`) and
parses the complete body.  External collaborators (hyper's response future,
the body chunk stream, the `Concat2` combinator, serde's `default`
attribute) are modelled from the spec where their code is outside this
repository; everything else is translated directly from the source.
-/

namespace OpenStack

/- ===================== protocol.rs ===================== -/

/-- `ServerSortKey` from `src/compute/v2/protocol.rs` (lines 31-65),
including the hidden `__Nonexhaustive` variant. -/
inductive ServerSortKey where
  | AccessIpv4 | AccessIpv6 | AutoDiskConfig | AvailabilityZone | ConfigDrive
  | CreatedAt | DisplayDescription | DisplayName | Host | HostName | ImageRef
  | InstanceTypeId | KernelId | KeyName | LaunchIndex | LaunchedAt | LockedBy
  | Node | PowerState | Progress | ProjectId | RamdiskId | RootDeviceName
  | TaskState | TerminatedAt | UpdatedAt | UserId | Uuid | VmState
  | __Nonexhaustive
deriving DecidableEq, Repr

/-- `ServerStatus` from `src/compute/v2/protocol.rs` (lines 67-91),
including the hidden `__Nonexhaustive` variant. -/
inductive ServerStatus where
  | Active | Building | Deleted | Error | HardRebooting | Migrating | Paused
  | Rebooting | Resizing | RevertingResize | ShutOff | Suspended | Rescuing
  | Shelved | ShelvedOffloaded | SoftDeleted | Unknown | UpdatingPassword
  | VerifyingResize
  | __Nonexhaustive
deriving DecidableEq, Repr

/-- `AddressType` from `src/compute/v2/protocol.rs` (lines 93-99). -/
inductive AddressType where
  | Fixed | Floating | Unknown
deriving DecidableEq, Repr

/-- `impl Into<String> for ServerSortKey` (protocol.rs lines 165-200).
The catch-all arm of the source is `unreachable!()`, which panics; a panic
is modelled as `none`. -/
def ServerSortKey.into : ServerSortKey → Option String
  | ServerSortKey.AccessIpv4 => some "access_ip_v4"
  | ServerSortKey.AccessIpv6 => some "access_ip_v6"
  | ServerSortKey.AutoDiskConfig => some "auto_disk_config"
  | ServerSortKey.AvailabilityZone => some "availability_zone"
  | ServerSortKey.ConfigDrive => some "config_drive"
  | ServerSortKey.CreatedAt => some "created_at"
  | ServerSortKey.DisplayDescription => some "display_description"
  | ServerSortKey.DisplayName => some "display_name"
  | ServerSortKey.Host => some "host"
  | ServerSortKey.HostName => some "hostname"
  | ServerSortKey.ImageRef => some "image_ref"
  | ServerSortKey.InstanceTypeId => some "instance_type_id"
  | ServerSortKey.KernelId => some "kernel_id"
  | ServerSortKey.KeyName => some "key_name"
  | ServerSortKey.LaunchIndex => some "launch_index"
  | ServerSortKey.LaunchedAt => some "launched_at"
  | ServerSortKey.LockedBy => some "locked_by"
  | ServerSortKey.Node => some "node"
  | ServerSortKey.PowerState => some "power_state"
  | ServerSortKey.Progress => some "progress"
  | ServerSortKey.ProjectId => some "project_id"
  | ServerSortKey.RamdiskId => some "ramdisk_id"
  | ServerSortKey.RootDeviceName => some "root_device_name"
  | ServerSortKey.TaskState => some "task_state"
  | ServerSortKey.TerminatedAt => some "terminated_at"
  | ServerSortKey.UpdatedAt => some "updated_at"
  | ServerSortKey.UserId => some "user_id"
  | ServerSortKey.Uuid => some "uuid"
  | ServerSortKey.VmState => some "vm_state"
  | ServerSortKey.__Nonexhaustive => none

/-- `impl Default for ServerStatus` (protocol.rs lines 202-206). -/
def ServerStatus.default : ServerStatus := ServerStatus.Unknown

/-- `impl Default for AddressType` (protocol.rs lines 208-212). -/
def AddressType.default : AddressType := AddressType.Unknown

/-- `de_address_type` (protocol.rs lines 214-221), specialised to an
already-deserialised string.  The second component records whether a
diagnostic notice (`warn!`) was emitted during the call: the source of
`de_address_type` contains no logging call, so it is `false` on every
branch. -/
def de_address_type (s : String) : AddressType × Bool :=
  if s = "fixed" then (AddressType.Fixed, false)
  else if s = "floating" then (AddressType.Floating, false)
  else (AddressType.default, false)

/-- `de_server_status` (protocol.rs lines 223-250), specialised to an
already-deserialised string.  The second component records whether a
diagnostic notice (`warn!`) was emitted during the call: the source emits
one exactly in the catch-all arm. -/
def de_server_status (s : String) : ServerStatus × Bool :=
  if s = "ACTIVE" then (ServerStatus.Active, false)
  else if s = "BUILD" then (ServerStatus.Building, false)
  else if s = "DELETED" then (ServerStatus.Deleted, false)
  else if s = "ERROR" then (ServerStatus.Error, false)
  else if s = "HARD_REBOOT" then (ServerStatus.HardRebooting, false)
  else if s = "MIGRATING" then (ServerStatus.Migrating, false)
  else if s = "PAUSED" then (ServerStatus.Paused, false)
  else if s = "REBOOT" then (ServerStatus.Rebooting, false)
  else if s = "RESIZE" then (ServerStatus.Resizing, false)
  else if s = "REVERT_RESIZE" then (ServerStatus.RevertingResize, false)
  else if s = "SHUTOFF" then (ServerStatus.ShutOff, false)
  else if s = "SUSPENDED" then (ServerStatus.Suspended, false)
  else if s = "RESCUE" then (ServerStatus.Rescuing, false)
  else if s = "SHELVED" then (ServerStatus.Shelved, false)
  else if s = "SHELVED_OFFLOADED" then (ServerStatus.ShelvedOffloaded, false)
  else if s = "SOFT_DELETED" then (ServerStatus.SoftDeleted, false)
  else if s = "PASSWORD" then (ServerStatus.UpdatingPassword, false)
  else if s = "VERIFY_RESIZE" then (ServerStatus.VerifyingResize, false)
  else (ServerStatus.default, true)

/-- `impl fmt::Display for ServerStatus` (protocol.rs lines 252-280).
The catch-all arm (reached by `Unknown` and `__Nonexhaustive`) writes
`"<UNKNOWN>"`. -/
def ServerStatus.display : ServerStatus → String
  | ServerStatus.Active => "ACTIVE"
  | ServerStatus.Building => "BUILD"
  | ServerStatus.Deleted => "DELETED"
  | ServerStatus.Error => "ERROR"
  | ServerStatus.HardRebooting => "HARD_REBOOT"
  | ServerStatus.Migrating => "MIGRATING"
  | ServerStatus.Paused => "PAUSED"
  | ServerStatus.Rebooting => "REBOOT"
  | ServerStatus.Resizing => "RESIZE"
  | ServerStatus.RevertingResize => "REVERT_RESIZE"
  | ServerStatus.ShutOff => "SHUTOFF"
  | ServerStatus.Suspended => "SUSPENDED"
  | ServerStatus.Rescuing => "RESCUE"
  | ServerStatus.Shelved => "SHELVED"
  | ServerStatus.ShelvedOffloaded => "SHELVED_OFFLOADED"
  | ServerStatus.SoftDeleted => "SOFT_DELETED"
  | ServerStatus.UpdatingPassword => "PASSWORD"
  | ServerStatus.VerifyingResize => "VERIFY_RESIZE"
  | _ => "<UNKNOWN>"

/-- The wire strings recognised by the arms of `de_server_status`
(protocol.rs lines 227-244). -/
def knownServerStatusStrings : List String :=
  ["ACTIVE", "BUILD", "DELETED", "ERROR", "HARD_REBOOT", "MIGRATING",
   "PAUSED", "REBOOT", "RESIZE", "REVERT_RESIZE", "SHUTOFF", "SUSPENDED",
   "RESCUE", "SHELVED", "SHELVED_OFFLOADED", "SOFT_DELETED", "PASSWORD",
   "VERIFY_RESIZE"]

/-- The wire strings recognised by the arms of `de_address_type`
(protocol.rs lines 217-218). -/
def knownAddressTypeStrings : List String := ["fixed", "floating"]

/-- Modelled from the spec: serde's field handling for
`#[serde(deserialize_with = "de_server_status", default)]` on
`Server::status` (protocol.rs line 137).  serde itself is outside this
repository: an absent field uses `Default::default()`, a present string
field goes through `de_server_status`. -/
def serverStatusField : Option String → ServerStatus
  | none => ServerStatus.default
  | some s => (de_server_status s).1

/-- Modelled from the spec: serde's field handling for
`#[serde(rename = "OS-EXT-IPS:type", default, deserialize_with =
"de_address_type")]` on `ServerAddress::addr_type` (protocol.rs lines
110-112).  An absent field uses `Default::default()`, a present string
field goes through `de_address_type`. -/
def addrTypeField : Option String → AddressType
  | none => AddressType.default
  | some s => (de_address_type s).1

/- ===================== http.rs ===================== -/

/-- Outcome of one poll of a future, after Rust's
`Poll<Item, Error> = Result<Async<Item>, Error>`. -/
inductive Poll (A : Type) (E : Type) where
  | notReady
  | ready (a : A)
  | error (e : E)
deriving DecidableEq, Repr

/-- Opaque transport-level error (hyper's error type), identified by a
code for the purposes of the model. -/
structure HyperError where
  code : Nat
deriving DecidableEq, Repr

/-- One scripted poll outcome of the body chunk stream: the stream is
either not ready, yields a chunk of bytes, or fails with a transport
error.  End of stream is the exhaustion of the script. -/
inductive BodyEv where
  | notReady
  | chunk (data : List Nat)
  | errorEv (e : HyperError)
deriving DecidableEq, Repr

/-- A raw HTTP response: status code plus the script of its body stream.
Headers are irrelevant to the verified code and omitted. -/
structure Response where
  status : Nat
  bodyScript : List BodyEv
deriving DecidableEq, Repr

/-- The error type of the pipeline (`super::ApiError`).  Its definition is
outside the shown source; the variants are the ones used by `http.rs`
(`ApiError::HttpError(status, resp)`) together with the spec's taxonomy
(section 7): `TransportError` is the `From<hyper::Error>` conversion
applied by `try_ready!` (spec: TransportFailure), `ParseError` is a
body-parse failure (spec: ParseFailure). -/
inductive ApiError where
  | HttpError (status : Nat) (resp : Response)
  | TransportError (e : HyperError)
  | ParseError (detail : List Nat)
deriving DecidableEq, Repr

/-- Modelled from the spec: hyper's `StatusCode::is_success`, the success
range being 2xx (spec section 4.1). -/
def isSuccess (status : Nat) : Bool := 200 ≤ status && status < 300

deriving instance DecidableEq for Except

/-- Modelled from the spec: hyper's `FutureResponse`, the in-flight
request-to-response operation.  It reports not-ready `pending` times, then
completes with `result`; `done` records that the one-shot result has been
consumed, so a completing poll after the first reads nothing further from
the transport. -/
structure FutureResponse where
  pending : Nat
  result : Except HyperError Response
  done : Bool
deriving DecidableEq, Repr

/-- One poll of the wrapped transport future.  The third component counts
transport reads: 1 exactly when the one-shot result is consumed for the
first time. -/
def FutureResponse.poll (f : FutureResponse) :
    FutureResponse × Poll Response HyperError × Nat :=
  match f.pending with
  | Nat.succ n => ({ f with pending := n }, Poll.notReady, 0)
  | 0 =>
    let reads := if f.done then 0 else 1
    let f' := { f with done := true }
    match f.result with
    | Except.ok r => (f', Poll.ready r, reads)
    | Except.error e => (f', Poll.error e, reads)

/-- `ApiResponse` (http.rs line 36): a newtype over the transport future. -/
structure ApiResponse where
  fut : FutureResponse
deriving DecidableEq, Repr

/-- `impl Future for ApiResponse` (http.rs lines 71-85): poll the inner
future (`try_ready!` propagates not-ready and transport errors, the latter
through `From`), then validate the status: a success status passes the
response through, any other status becomes `ApiError::HttpError`. -/
def ApiResponse.poll (a : ApiResponse) :
    ApiResponse × Poll Response ApiError × Nat :=
  match a.fut.poll with
  | (f', Poll.notReady, k) => (⟨f'⟩, Poll.notReady, k)
  | (f', Poll.error e, k) => (⟨f'⟩, Poll.error (ApiError.TransportError e), k)
  | (f', Poll.ready resp, k) =>
    if isSuccess resp.status then (⟨f'⟩, Poll.ready resp, k)
    else (⟨f'⟩, Poll.error (ApiError.HttpError resp.status resp), k)

/-- Modelled from the spec: the state of `futures::stream::Concat2`
applied to the body stream — the un-consumed script, the accumulated
buffer, and the memoized terminal outcome (spec section 4.2: the handle is
memoized and never reconstructed, so a poll after completion reads nothing
further from the transport). -/
structure Concat2 where
  script : List BodyEv
  acc : List Nat
  fin : Option (Except HyperError (List Nat))
deriving DecidableEq, Repr

/-- The internal loop of one `Concat2` poll: consume script events,
appending chunks to the accumulator, until the stream is not ready, is
exhausted, or fails.  `r` counts the stream polls performed so far in this
call; the returned `Nat` is the total number of script events consumed. -/
def concatGo (script : List BodyEv) (acc : List Nat) (r : Nat) :
    Concat2 × Poll (List Nat) HyperError × Nat :=
  match script with
  | [] => (⟨[], acc, some (Except.ok acc)⟩, Poll.ready acc, r)
  | BodyEv.notReady :: rest => (⟨rest, acc, none⟩, Poll.notReady, r + 1)
  | BodyEv.chunk d :: rest => concatGo rest (acc ++ d) (r + 1)
  | BodyEv.errorEv e :: rest =>
    (⟨rest, acc, some (Except.error e)⟩, Poll.error e, r + 1)

/-- One poll of the body accumulator.  A memoized terminal outcome is
returned again without touching the stream; otherwise the internal loop
runs. -/
def Concat2.poll (c : Concat2) : Concat2 × Poll (List Nat) HyperError × Nat :=
  match c.fin with
  | some (Except.ok b) => (c, Poll.ready b, 0)
  | some (Except.error e) => (c, Poll.error e, 0)
  | none => concatGo c.script c.acc 0

/-- Effect counters for one progress step of `ApiResult`:
how many times `self.inner.poll()` was invoked, how many transport
response reads happened, how many body-stream events were consumed, and
how many times the body parser ran. -/
structure Effects where
  innerPolls : Nat
  respReads : Nat
  bodyReads : Nat
  parserCalls : Nat
deriving DecidableEq, Repr

/-- Pointwise sum of effect counters. -/
def Effects.add (a b : Effects) : Effects :=
  ⟨a.innerPolls + b.innerPolls, a.respReads + b.respReads,
   a.bodyReads + b.bodyReads, a.parserCalls + b.parserCalls⟩

/-- `ApiResult` (http.rs lines 39-43): the guarded response plus the
optional body accumulator (`body: Option<Concat2<Body>>`).  The
`PhantomData` marker carries no state and is dropped; the target type
enters through the parser argument of `ApiResult.poll`. -/
structure ApiResult where
  inner : ApiResponse
  body : Option Concat2
deriving DecidableEq, Repr

/-- `ApiResult::new` (http.rs lines 89-95). -/
def ApiResult.new (response : ApiResponse) : ApiResult := ⟨response, none⟩

/-- The tail of `ApiResult::poll` (http.rs lines 109-111): poll the body
accumulator; `try_ready!` propagates not-ready and stream errors (the
latter through `From`), and a complete chunk is handed to
`ParseBody::parse_body`, whose error is returned verbatim.  Returns the
new state, the outcome, the body-stream events consumed, and the number of
parser invocations. -/
def pollBody {T : Type} (parse : List Nat → Except ApiError T)
    (inner : ApiResponse) (c : Concat2) :
    ApiResult × Poll T ApiError × Nat × Nat :=
  match c.poll with
  | (c', Poll.notReady, b) => (⟨inner, some c'⟩, Poll.notReady, b, 0)
  | (c', Poll.error e, b) =>
    (⟨inner, some c'⟩, Poll.error (ApiError.TransportError e), b, 0)
  | (c', Poll.ready chunk, b) =>
    match parse chunk with
    | Except.ok t => (⟨inner, some c'⟩, Poll.ready t, b, 1)
    | Except.error e => (⟨inner, some c'⟩, Poll.error e, b, 1)

/-- `impl Future for ApiResult` (http.rs lines 102-112): if the body
accumulator is absent, poll the guarded response (`try_ready!` propagates
not-ready and errors with the body still absent); on success, build the
accumulator from the response's body (`resp.body().concat2()`) and drive
it within the same step. -/
def ApiResult.poll {T : Type} (parse : List Nat → Except ApiError T)
    (s : ApiResult) : ApiResult × Poll T ApiError × Effects :=
  match s.body with
  | some c =>
    match pollBody parse s.inner c with
    | (s', r, b, pc) => (s', r, ⟨0, 0, b, pc⟩)
  | none =>
    match s.inner.poll with
    | (inner', Poll.notReady, k) => (⟨inner', none⟩, Poll.notReady, ⟨1, k, 0, 0⟩)
    | (inner', Poll.error e, k) => (⟨inner', none⟩, Poll.error e, ⟨1, k, 0, 0⟩)
    | (inner', Poll.ready resp, k) =>
      match pollBody parse inner' ⟨resp.bodyScript, [], none⟩ with
      | (s', r, b, pc) => (s', r, ⟨1, k, b, pc⟩)

/-- The cooperative driver: poll up to `n` times, stopping at the first
terminal outcome (the futures contract — a completed future is not polled
again).  Returns the final state, the last outcome (not-ready when fuel
ran out), and the cumulative effects. -/
def drive {T : Type} (parse : List Nat → Except ApiError T) :
    Nat → ApiResult → ApiResult × Poll T ApiError × Effects
  | 0, s => (s, Poll.notReady, ⟨0, 0, 0, 0⟩)
  | Nat.succ n, s =>
    match ApiResult.poll parse s with
    | (s', Poll.notReady, e) =>
      match drive parse n s' with
      | (s'', r', e') => (s'', r', e.add e')
    | (s', Poll.ready t, e) => (s', Poll.ready t, e)
    | (s', Poll.error err, e) => (s', Poll.error err, e)

/-- Concatenation of all chunk payloads of a body script — the complete
body the transport delivers. -/
def joinChunks : List BodyEv → List Nat
  | [] => []
  | BodyEv.chunk d :: rest => d ++ joinChunks rest
  | _ :: rest => joinChunks rest

/-- Number of not-ready events in a body script. -/
def countNR : List BodyEv → Nat
  | [] => 0
  | BodyEv.notReady :: rest => countNR rest + 1
  | _ :: rest => countNR rest

/-- A body script with no stream error. -/
def noErr (script : List BodyEv) : Bool :=
  script.all fun e =>
    match e with
    | BodyEv.errorEv _ => false
    | _ => true

/-- A poll outcome is terminal when it is a value or an error. -/
def isTerminal {A E : Type} : Poll A E → Bool
  | Poll.notReady => false
  | _ => true

/-- What parsing the complete body yields as a poll outcome
(`parse_body(&chunk).map(Async::Ready)`, errors propagated). -/
def pollOut {T : Type} (parse : List Nat → Except ApiError T)
    (b : List Nat) : Poll T ApiError :=
  match parse b with
  | Except.ok t => Poll.ready t
  | Except.error e => Poll.error e

/-- A state is settled when it has delivered its terminal outcome: either
the guard failed (result consumed, no accumulator, and any stored response
has a non-success status) or the accumulator holds a memoized terminal
outcome.  Polling a settled state reads nothing from the transport. -/
def settled (s : ApiResult) : Prop :=
  (s.body = none ∧ s.inner.fut.pending = 0 ∧ s.inner.fut.done = true ∧
    ∀ resp, s.inner.fut.result = Except.ok resp → isSuccess resp.status = false)
  ∨ (∃ c, s.body = some c ∧ c.fin.isSome = true)

/-- Upper bound on the transport response reads still possible from a
state: one if the one-shot result is unconsumed, zero afterwards. -/
def respBound (s : ApiResult) : Nat :=
  if s.inner.fut.done then 0 else 1

/-- A sample `ParseBody` implementation for concrete runs: the body
length. -/
def lenParse : List Nat → Except ApiError Nat :=
  fun b => Except.ok b.length

/-- A sample `ParseBody` implementation that accepts exactly the body
`[1, 2, 3]` and reports a parse failure carrying the offending bytes
otherwise. -/
def strictParse : List Nat → Except ApiError Nat :=
  fun b => if b = [1, 2, 3] then Except.ok 42
           else Except.error (ApiError.ParseError b)

/- ===================== helper lemmas ===================== -/

/-- Decoding a string outside the recognised wire values hits the
catch-all arm of `de_server_status`: the default (`Unknown`) with a
diagnostic notice. -/
theorem de_server_status_unrecognized {s : String}
    (h : s ∉ knownServerStatusStrings) :
    de_server_status s = (ServerStatus.Unknown, true) := by
  simp only [knownServerStatusStrings, List.mem_cons, List.not_mem_nil,
    or_false, not_or] at h
  obtain ⟨h1, h2, h3, h4, h5, h6, h7, h8, h9, h10, h11, h12, h13, h14, h15,
    h16, h17, h18⟩ := h
  simp only [de_server_status, ServerStatus.default, if_neg h1, if_neg h2,
    if_neg h3, if_neg h4, if_neg h5, if_neg h6, if_neg h7, if_neg h8,
    if_neg h9, if_neg h10, if_neg h11, if_neg h12, if_neg h13, if_neg h14,
    if_neg h15, if_neg h16, if_neg h17, if_neg h18]

/-- Decoding a string outside the recognised wire values hits the
catch-all arm of `de_address_type`: the default (`Unknown`), with no
diagnostic notice anywhere in that function. -/
theorem de_address_type_unrecognized {s : String}
    (h : s ∉ knownAddressTypeStrings) :
    de_address_type s = (AddressType.Unknown, false) := by
  simp only [knownAddressTypeStrings, List.mem_cons, List.not_mem_nil,
    or_false, not_or] at h
  obtain ⟨h1, h2⟩ := h
  simp only [de_address_type, AddressType.default, if_neg h1, if_neg h2]

/-- The accumulator of the body handle only ever grows by appending: the
internal loop never discards what was already accumulated. -/
theorem concatGo_acc (script : List BodyEv) :
    ∀ (acc : List Nat) (r : Nat),
      ∃ t, (concatGo script acc r).1.acc = acc ++ t := by
  induction script with
  | nil => intro acc r; exact ⟨[], by simp [concatGo]⟩
  | cons e rest ih =>
    intro acc r
    cases e with
    | notReady => exact ⟨[], by simp [concatGo]⟩
    | chunk d =>
      obtain ⟨t, ht⟩ := ih (acc ++ d) (r + 1)
      exact ⟨d ++ t, by simp [concatGo, ht]⟩
    | errorEv e => exact ⟨[], by simp [concatGo]⟩

/-- The poll counter passed to the internal loop affects only the read
count, not the resulting state or outcome. -/
theorem concatGo_counter (script : List BodyEv) :
    ∀ (acc : List Nat) (r : Nat),
      (concatGo script acc r).1 = (concatGo script acc 0).1 ∧
      (concatGo script acc r).2.1 = (concatGo script acc 0).2.1 := by
  induction script with
  | nil => intro acc r; exact ⟨rfl, rfl⟩
  | cons e rest ih =>
    intro acc r
    cases e with
    | notReady => exact ⟨rfl, rfl⟩
    | chunk d =>
      have h1 := ih (acc ++ d) (r + 1)
      have h2 := ih (acc ++ d) 1
      simp only [concatGo]
      exact ⟨h1.1.trans h2.1.symm, h1.2.trans h2.2.symm⟩
    | errorEv e => exact ⟨rfl, rfl⟩

/-- When the internal loop produces a terminal outcome, the memoized
outcome field of the resulting state is populated. -/
theorem concatGo_fin (script : List BodyEv) :
    ∀ (acc : List Nat) (r : Nat),
      (concatGo script acc r).2.1 = Poll.notReady ∨
      ((concatGo script acc r).1).fin.isSome = true := by
  induction script with
  | nil => intro acc r; exact Or.inr (by simp [concatGo])
  | cons e rest ih =>
    intro acc r
    cases e with
    | notReady => exact Or.inl (by simp [concatGo])
    | chunk d => simpa only [concatGo] using ih (acc ++ d) (r + 1)
    | errorEv e => exact Or.inr (by simp [concatGo])

/-- Polling the accumulator only ever appends to the buffer. -/
theorem Concat2.poll_acc (c : Concat2) :
    ∃ t, ((c.poll).1).acc = c.acc ++ t := by
  rcases c with ⟨script, acc, fin⟩
  cases fin with
  | none => simpa [Concat2.poll] using concatGo_acc script acc 0
  | some v => cases v <;> exact ⟨[], by simp [Concat2.poll]⟩

/-- An accumulator with a memoized outcome replays it: the state is
unchanged, no stream event is consumed, and the outcome is terminal. -/
theorem Concat2.poll_settled (c : Concat2) (h : c.fin.isSome = true) :
    (c.poll).1 = c ∧ (c.poll).2.2 = 0 ∧
    isTerminal ((c.poll).2.1) = true := by
  rcases c with ⟨script, acc, fin⟩
  cases fin with
  | none => simp at h
  | some v => cases v <;> simp [Concat2.poll, isTerminal]

/-- A terminal accumulator poll leaves the memoized outcome populated. -/
theorem Concat2.poll_terminal_fin (c : Concat2)
    (h : isTerminal ((c.poll).2.1) = true) :
    ((c.poll).1).fin.isSome = true := by
  rcases c with ⟨script, acc, fin⟩
  cases fin with
  | none =>
    rcases concatGo_fin script acc 0 with hnr | hs
    · exfalso
      simp only [Concat2.poll] at h
      rw [hnr] at h
      simp [isTerminal] at h
    · simpa [Concat2.poll] using hs
  | some v => cases v <;> simp [Concat2.poll]

/-- The state after one body-stage step: the guard is untouched and the
body handle is the stepped accumulator. -/
theorem pollBody_state {T : Type} (parse : List Nat → Except ApiError T)
    (inner : ApiResponse) (c : Concat2) :
    (pollBody parse inner c).1 = ⟨inner, some ((c.poll).1)⟩ := by
  rcases h : c.poll with ⟨c', r, b⟩
  cases r with
  | notReady => simp [pollBody, h]
  | error e => simp [pollBody, h]
  | ready chunk => cases hp : parse chunk <;> simp [pollBody, h, hp]

/-- The body-stage step consumes exactly the stream events that the
accumulator poll consumes. -/
theorem pollBody_reads {T : Type} (parse : List Nat → Except ApiError T)
    (inner : ApiResponse) (c : Concat2) :
    (pollBody parse inner c).2.2.1 = (c.poll).2.2 := by
  rcases h : c.poll with ⟨c', r, b⟩
  cases r with
  | notReady => simp [pollBody, h]
  | error e => simp [pollBody, h]
  | ready chunk => cases hp : parse chunk <;> simp [pollBody, h, hp]

/-- The body-stage step is pending exactly when the accumulator is. -/
theorem pollBody_notReady {T : Type} (parse : List Nat → Except ApiError T)
    (inner : ApiResponse) (c : Concat2) :
    ((pollBody parse inner c).2.1 = Poll.notReady ↔
      (c.poll).2.1 = Poll.notReady) := by
  rcases h : c.poll with ⟨c', r, b⟩
  cases r with
  | notReady => simp [pollBody, h]
  | error e => simp [pollBody, h]
  | ready chunk => cases hp : parse chunk <;> simp [pollBody, h, hp]

/-- Accumulators that poll to the same state and outcome produce the same
body-stage state and outcome. -/
theorem pollBody_congr {T : Type} (parse : List Nat → Except ApiError T)
    (inner : ApiResponse) (c₁ c₂ : Concat2)
    (hs : (c₁.poll).1 = (c₂.poll).1) (ho : (c₁.poll).2.1 = (c₂.poll).2.1) :
    (pollBody parse inner c₁).1 = (pollBody parse inner c₂).1 ∧
    (pollBody parse inner c₁).2.1 = (pollBody parse inner c₂).2.1 := by
  rcases h1 : c₁.poll with ⟨c', r, b⟩
  rcases h2 : c₂.poll with ⟨c'', r', b'⟩
  rw [h1, h2] at hs ho
  simp only at hs ho
  subst hs
  subst ho
  cases r with
  | notReady => simp [pollBody, h1, h2]
  | error e => simp [pollBody, h1, h2]
  | ready chunk => cases hp : parse chunk <;> simp [pollBody, h1, h2, hp]

/-- One step from a state that already holds a body accumulator is fully
described by the body-stage step, with no inner poll and no response
read. -/
theorem ApiResult.poll_some {T : Type} (parse : List Nat → Except ApiError T)
    (inner : ApiResponse) (c : Concat2) :
    ApiResult.poll parse ⟨inner, some c⟩ =
      ((pollBody parse inner c).1, (pollBody parse inner c).2.1,
       ⟨0, 0, (pollBody parse inner c).2.2.1,
        (pollBody parse inner c).2.2.2⟩) := by
  rcases h : pollBody parse inner c with ⟨s', r, b, pc⟩
  simp [ApiResult.poll, h]

/-- One step from an accumulator-less state whose guard is pending:
not-ready, no body activity, body still absent. -/
theorem ApiResult.poll_none_notReady {T : Type}
    (parse : List Nat → Except ApiError T) (a inner' : ApiResponse) (k : Nat)
    (h : a.poll = (inner', Poll.notReady, k)) :
    ApiResult.poll parse ⟨a, none⟩ =
      (⟨inner', none⟩, Poll.notReady, ⟨1, k, 0, 0⟩) := by
  simp [ApiResult.poll, h]

/-- One step from an accumulator-less state whose guard fails: the error
is propagated on this very step and no accumulator is created. -/
theorem ApiResult.poll_none_error {T : Type}
    (parse : List Nat → Except ApiError T) (a inner' : ApiResponse)
    (err : ApiError) (k : Nat) (h : a.poll = (inner', Poll.error err, k)) :
    ApiResult.poll parse ⟨a, none⟩ =
      (⟨inner', none⟩, Poll.error err, ⟨1, k, 0, 0⟩) := by
  simp [ApiResult.poll, h]

/-- One step from an accumulator-less state whose guard succeeds: the
fresh accumulator over the detached body source is built and driven in
this same step. -/
theorem ApiResult.poll_none_ready {T : Type}
    (parse : List Nat → Except ApiError T) (a inner' : ApiResponse)
    (resp : Response) (k : Nat) (h : a.poll = (inner', Poll.ready resp, k)) :
    ApiResult.poll parse ⟨a, none⟩ =
      ((pollBody parse inner' ⟨resp.bodyScript, [], none⟩).1,
       (pollBody parse inner' ⟨resp.bodyScript, [], none⟩).2.1,
       ⟨1, k, (pollBody parse inner' ⟨resp.bodyScript, [], none⟩).2.2.1,
        (pollBody parse inner' ⟨resp.bodyScript, [], none⟩).2.2.2⟩) := by
  rcases hpb : pollBody parse inner' ⟨resp.bodyScript, [], none⟩
    with ⟨s', r, b, pc⟩
  simp [ApiResult.poll, h, hpb]

/-- Each progress step consumes the response at most within its budget:
the response reads of the step plus the budget left afterwards do not
exceed the budget before. -/
theorem poll_respBound {T : Type} (parse : List Nat → Except ApiError T)
    (s : ApiResult) :
    (ApiResult.poll parse s).2.2.respReads +
      respBound ((ApiResult.poll parse s).1) ≤ respBound s := by
  rcases s with ⟨⟨⟨p, res, d⟩⟩, body⟩
  cases body with
  | some c =>
    rw [ApiResult.poll_some]
    simp [pollBody_state, respBound]
  | none =>
    cases p with
    | succ n =>
      simp [ApiResult.poll, ApiResponse.poll, FutureResponse.poll, respBound]
    | zero =>
      cases res with
      | error e =>
        simp [ApiResult.poll, ApiResponse.poll, FutureResponse.poll,
          respBound]
      | ok resp =>
        by_cases hs : isSuccess resp.status
        · have h : (ApiResponse.mk ⟨0, Except.ok resp, d⟩).poll =
              (⟨⟨0, Except.ok resp, true⟩⟩, Poll.ready resp,
               if d then 0 else 1) := by
            simp [ApiResponse.poll, FutureResponse.poll, hs]
          rw [ApiResult.poll_none_ready parse _ _ _ _ h]
          simp [pollBody_state, respBound]
        · simp only [Bool.not_eq_true] at hs
          simp [ApiResult.poll, ApiResponse.poll, FutureResponse.poll, hs,
            respBound]

/-- Over a whole driven run, response reads stay within the initial
budget. -/
theorem drive_respBound {T : Type} (parse : List Nat → Except ApiError T) :
    ∀ (n : Nat) (s : ApiResult),
      (drive parse n s).2.2.respReads +
        respBound ((drive parse n s).1) ≤ respBound s := by
  intro n
  induction n with
  | zero => intro s; simp [drive]
  | succ m ih =>
    intro s
    rcases h : ApiResult.poll parse s with ⟨s', r, e⟩
    have hb := poll_respBound parse s
    rw [h] at hb
    simp only at hb
    cases r with
    | notReady =>
      rcases hd : drive parse m s' with ⟨s'', r', e'⟩
      have hi := ih s'
      rw [hd] at hi
      simp only at hi
      simp only [drive, h, hd, Effects.add]
      omega
    | ready t => simpa [drive, h] using hb
    | error err => simpa [drive, h] using hb

/-- The parser does not run on a step whose outcome is not-ready, and
never runs more than once in a single step. -/
theorem poll_parserCalls {T : Type} (parse : List Nat → Except ApiError T)
    (s : ApiResult) :
    (ApiResult.poll parse s).2.2.parserCalls ≤ 1 ∧
    ((ApiResult.poll parse s).2.1 = Poll.notReady →
      (ApiResult.poll parse s).2.2.parserCalls = 0) := by
  have hpb : ∀ (inner : ApiResponse) (c : Concat2),
      (pollBody parse inner c).2.2.2 ≤ 1 ∧
      ((pollBody parse inner c).2.1 = Poll.notReady →
        (pollBody parse inner c).2.2.2 = 0) := by
    intro inner c
    rcases h : c.poll with ⟨c', r, b⟩
    cases r with
    | notReady => simp [pollBody, h]
    | error e => simp [pollBody, h]
    | ready chunk => cases hp : parse chunk <;> simp [pollBody, h, hp]
  rcases s with ⟨a, body⟩
  cases body with
  | some c =>
    rw [ApiResult.poll_some]
    exact hpb a c
  | none =>
    rcases h : a.poll with ⟨inner', r, k⟩
    cases r with
    | notReady => rw [ApiResult.poll_none_notReady parse a inner' k h]; simp
    | error e => rw [ApiResult.poll_none_error parse a inner' e k h]; simp
    | ready resp =>
      rw [ApiResult.poll_none_ready parse a inner' resp k h]
      exact hpb inner' ⟨resp.bodyScript, [], none⟩

/-- Over a whole driven run, the parser is invoked at most once: pending
steps never invoke it and the run stops at the first terminal step. -/
theorem drive_parserCalls {T : Type} (parse : List Nat → Except ApiError T) :
    ∀ (n : Nat) (s : ApiResult),
      (drive parse n s).2.2.parserCalls ≤ 1 := by
  intro n
  induction n with
  | zero => intro s; simp [drive]
  | succ m ih =>
    intro s
    rcases h : ApiResult.poll parse s with ⟨s', r, e⟩
    have hp := poll_parserCalls parse s
    rw [h] at hp
    simp only at hp
    cases r with
    | notReady =>
      rcases hd : drive parse m s' with ⟨s'', r', e'⟩
      have hi := ih s'
      rw [hd] at hi
      simp only at hi
      simp only [drive, h, hd, Effects.add]
      have h0 := hp.2 rfl
      omega
    | ready t => simpa [drive, h] using hp.1
    | error err => simpa [drive, h] using hp.1

/-- Two states whose next step agrees on resulting state and outcome
produce the same final outcome under the driver. -/
theorem drive_congr_step {T : Type} (parse : List Nat → Except ApiError T)
    (m : Nat) (s₁ s₂ : ApiResult)
    (hs : (ApiResult.poll parse s₁).1 = (ApiResult.poll parse s₂).1)
    (ho : (ApiResult.poll parse s₁).2.1 = (ApiResult.poll parse s₂).2.1) :
    (drive parse (m + 1) s₁).2.1 = (drive parse (m + 1) s₂).2.1 := by
  rcases h1 : ApiResult.poll parse s₁ with ⟨a, r, e⟩
  rcases h2 : ApiResult.poll parse s₂ with ⟨a2, r2, e2⟩
  rw [h1, h2] at hs ho
  simp only at hs ho
  subst hs
  subst ho
  cases r with
  | notReady =>
    rcases hd : drive parse m a with ⟨s'', r', e'⟩
    simp [drive, h1, h2, hd]
  | ready t => simp [drive, h1, h2]
  | error err => simp [drive, h1, h2]

/-- A script without stream errors keeps that property when its head is
dropped. -/
theorem noErr_tail {e : BodyEv} {rest : List BodyEv}
    (h : noErr (e :: rest) = true) : noErr rest = true := by
  unfold noErr at h ⊢
  rw [List.all_cons, Bool.and_eq_true] at h
  exact h.2

/-- Driving a state that holds a body accumulator to completion yields
exactly the parse of the whole accumulated buffer: what is already in the
buffer followed by every chunk still in the script. -/
theorem drive_body {T : Type} (parse : List Nat → Except ApiError T) :
    ∀ (script : List BodyEv) (acc : List Nat) (inner : ApiResponse) (n : Nat),
      noErr script = true → countNR script < n →
      (drive parse n ⟨inner, some ⟨script, acc, none⟩⟩).2.1 =
        pollOut parse (acc ++ joinChunks script) := by
  intro script
  induction script with
  | nil =>
    intro acc inner n _ hn
    obtain ⟨m, rfl⟩ : ∃ m, n = m + 1 := ⟨n - 1, by omega⟩
    have hc : Concat2.poll ⟨[], acc, none⟩ =
        (⟨[], acc, some (Except.ok acc)⟩, Poll.ready acc, 0) := by
      simp [Concat2.poll, concatGo]
    cases hp : parse acc with
    | ok t =>
      simp [drive, ApiResult.poll_some, pollBody, hc, hp, pollOut, joinChunks]
    | error e =>
      simp [drive, ApiResult.poll_some, pollBody, hc, hp, pollOut, joinChunks]
  | cons ev rest ih =>
    intro acc inner n herr hn
    cases ev with
    | notReady =>
      obtain ⟨m, rfl⟩ : ∃ m, n = m + 1 := ⟨n - 1, by omega⟩
      have hc : Concat2.poll ⟨BodyEv.notReady :: rest, acc, none⟩ =
          (⟨rest, acc, none⟩, Poll.notReady, 1) := by
        simp [Concat2.poll, concatGo]
      have hstep : ApiResult.poll parse
          ⟨inner, some ⟨BodyEv.notReady :: rest, acc, none⟩⟩ =
          (⟨inner, some ⟨rest, acc, none⟩⟩, Poll.notReady, ⟨0, 0, 1, 0⟩) := by
        rw [ApiResult.poll_some]
        simp [pollBody, hc]
      rcases hd : drive parse m ⟨inner, some ⟨rest, acc, none⟩⟩
        with ⟨s'', r', e'⟩
      have hi := ih acc inner m (noErr_tail herr)
        (by simp only [countNR] at hn; omega)
      rw [hd] at hi
      simp only at hi
      simp [drive, hstep, hd, joinChunks]
      exact hi
    | chunk d =>
      obtain ⟨m, rfl⟩ : ∃ m, n = m + 1 := ⟨n - 1, by omega⟩
      have hcc := concatGo_counter rest (acc ++ d) (0 + 1)
      have hs1 : (Concat2.poll ⟨BodyEv.chunk d :: rest, acc, none⟩).1 =
          (Concat2.poll ⟨rest, acc ++ d, none⟩).1 := by
        simp only [Concat2.poll, concatGo]
        exact hcc.1
      have ho1 : (Concat2.poll ⟨BodyEv.chunk d :: rest, acc, none⟩).2.1 =
          (Concat2.poll ⟨rest, acc ++ d, none⟩).2.1 := by
        simp only [Concat2.poll, concatGo]
        exact hcc.2
      have hpb := pollBody_congr parse inner _ _ hs1 ho1
      have hs2 : (ApiResult.poll parse
          ⟨inner, some ⟨BodyEv.chunk d :: rest, acc, none⟩⟩).1 =
          (ApiResult.poll parse ⟨inner, some ⟨rest, acc ++ d, none⟩⟩).1 := by
        rw [ApiResult.poll_some, ApiResult.poll_some]
        simpa using hpb.1
      have ho2 : (ApiResult.poll parse
          ⟨inner, some ⟨BodyEv.chunk d :: rest, acc, none⟩⟩).2.1 =
          (ApiResult.poll parse ⟨inner, some ⟨rest, acc ++ d, none⟩⟩).2.1 := by
        rw [ApiResult.poll_some, ApiResult.poll_some]
        simpa using hpb.2
      rw [drive_congr_step parse m _ _ hs2 ho2]
      have hi := ih (acc ++ d) inner (m + 1) (noErr_tail herr)
        (by simp only [countNR] at hn ⊢; omega)
      rw [hi]
      simp [joinChunks, List.append_assoc]
    | errorEv e => simp [noErr] at herr

/-- On the step where the guard succeeds, driving the original state and
driving the state with the freshly detached accumulator coincide. -/
theorem drive_skip_guard {T : Type} (parse : List Nat → Except ApiError T)
    (m : Nat) (a inner' : ApiResponse) (resp : Response) (k : Nat)
    (h : a.poll = (inner', Poll.ready resp, k)) :
    (drive parse (m + 1) ⟨a, none⟩).2.1 =
      (drive parse (m + 1) ⟨inner', some ⟨resp.bodyScript, [], none⟩⟩).2.1 := by
  apply drive_congr_step
  · rw [ApiResult.poll_none_ready parse a inner' resp k h,
      ApiResult.poll_some]
  · rw [ApiResult.poll_none_ready parse a inner' resp k h,
      ApiResult.poll_some]

/-- A fresh request whose response has a success status, driven with
enough fuel (`pending` guard steps, one per body not-ready, one final
step), terminates with the parse of the complete body. -/
theorem drive_full_body {T : Type} (parse : List Nat → Except ApiError T)
    (status : Nat) (script : List BodyEv) :
    ∀ (p n : Nat), isSuccess status = true → noErr script = true →
      p + countNR script + 1 ≤ n →
      (drive parse n
        (ApiResult.new ⟨⟨p, Except.ok ⟨status, script⟩, false⟩⟩)).2.1 =
        pollOut parse (joinChunks script) := by
  intro p
  induction p with
  | zero =>
    intro n hs herr hn
    obtain ⟨m, rfl⟩ : ∃ m, n = m + 1 := ⟨n - 1, by omega⟩
    have hpoll : (ApiResponse.mk ⟨0, Except.ok ⟨status, script⟩, false⟩).poll =
        (⟨⟨0, Except.ok ⟨status, script⟩, true⟩⟩,
         Poll.ready ⟨status, script⟩, 1) := by
      simp [ApiResponse.poll, FutureResponse.poll, hs]
    rw [show (ApiResult.new ⟨⟨0, Except.ok ⟨status, script⟩, false⟩⟩ :
        ApiResult) = ⟨⟨⟨0, Except.ok ⟨status, script⟩, false⟩⟩, none⟩
      from rfl]
    rw [drive_skip_guard parse m _ _ _ _ hpoll]
    have hb := drive_body parse script []
      ⟨⟨0, Except.ok ⟨status, script⟩, true⟩⟩ (m + 1) herr (by omega)
    simpa using hb
  | succ q ih =>
    intro n hs herr hn
    obtain ⟨m, rfl⟩ : ∃ m, n = m + 1 := ⟨n - 1, by omega⟩
    have hpoll : (ApiResponse.mk
        ⟨q + 1, Except.ok ⟨status, script⟩, false⟩).poll =
        (⟨⟨q, Except.ok ⟨status, script⟩, false⟩⟩, Poll.notReady, 0) := by
      simp [ApiResponse.poll, FutureResponse.poll]
    have hstep := ApiResult.poll_none_notReady parse _ _ _ hpoll
    rcases hd : drive parse m
      (⟨⟨⟨q, Except.ok ⟨status, script⟩, false⟩⟩, none⟩ : ApiResult)
      with ⟨s'', r', e'⟩
    have hi := ih m hs herr (by omega)
    rw [show (ApiResult.new ⟨⟨q, Except.ok ⟨status, script⟩, false⟩⟩ :
        ApiResult) = ⟨⟨⟨q, Except.ok ⟨status, script⟩, false⟩⟩, none⟩
      from rfl, hd] at hi
    simp only at hi
    simp [drive, ApiResult.new, hstep, hd]
    exact hi

/- ===================== claim theorems: protocol.rs ===================== -/

/-- C6 (counterexample): the claim quantifies over every declared variant,
but the hidden declared variant `__Nonexhaustive` does not round-trip: its
Display string is `"<UNKNOWN>"`, which decodes to `Unknown`, not back to
`__Nonexhaustive`. -/
theorem c6_round_trip_counterexample :
    ¬ ((de_server_status
        (ServerStatus.display ServerStatus.__Nonexhaustive)).1 =
      ServerStatus.__Nonexhaustive) := by
  decide

/-- C6 (amended): for every `ServerStatus` variant except the hidden
`__Nonexhaustive`, decoding the Display string yields the variant back,
and the sort key `AccessIpv4` converts to the wire string
`"access_ip_v4"`. -/
theorem c6_round_trip :
    (∀ v : ServerStatus, v ≠ ServerStatus.__Nonexhaustive →
      (de_server_status (ServerStatus.display v)).1 = v) ∧
    ServerSortKey.into ServerSortKey.AccessIpv4 = some "access_ip_v4" := by
  constructor
  · intro v h
    cases v
    case __Nonexhaustive => exact absurd rfl h
    all_goals decide
  · rfl

/-- C6 (witness): the amended round-trip at the concrete variant
`Active`. -/
theorem c6_round_trip_witness :
    (de_server_status (ServerStatus.display ServerStatus.Active)).1 =
      ServerStatus.Active ∧
    ServerSortKey.into ServerSortKey.AccessIpv4 = some "access_ip_v4" :=
  ⟨c6_round_trip.1 ServerStatus.Active (by decide), c6_round_trip.2⟩

/-- C7 (counterexample): the claim requires every enumeration decoder to
emit a diagnostic notice on an unrecognized string, but `de_address_type`
contains no logging call: at the unrecognized string
`"TOTALLY_NEW_STATE"` it returns `Unknown` with no notice. -/
theorem c7_unknown_fallback_counterexample :
    ¬ ((de_address_type "TOTALLY_NEW_STATE").1 = AddressType.Unknown ∧
       (de_address_type "TOTALLY_NEW_STATE").2 = true) := by
  decide

/-- C7 (amended): decoding an unrecognized string never fails and yields
the designated `Unknown` variant for both decoders; `de_server_status`
additionally emits a diagnostic notice, while `de_address_type` emits
none. -/
theorem c7_unknown_fallback (s : String) :
    (s ∉ knownServerStatusStrings →
      de_server_status s = (ServerStatus.Unknown, true)) ∧
    (s ∉ knownAddressTypeStrings →
      de_address_type s = (AddressType.Unknown, false)) :=
  ⟨fun h => de_server_status_unrecognized h,
   fun h => de_address_type_unrecognized h⟩

/-- C7 (witness): the amended claim at the concrete unrecognized string
`"TOTALLY_NEW_STATE"`. -/
theorem c7_unknown_fallback_witness :
    de_server_status "TOTALLY_NEW_STATE" = (ServerStatus.Unknown, true) ∧
    de_address_type "TOTALLY_NEW_STATE" = (AddressType.Unknown, false) :=
  ⟨(c7_unknown_fallback "TOTALLY_NEW_STATE").1 (by decide),
   (c7_unknown_fallback "TOTALLY_NEW_STATE").2 (by decide)⟩

/-- C9: the `Into<String>` conversion of `ServerSortKey` reaches the
panicking `unreachable!()` arm (modelled as `none`) exactly at the hidden
`__Nonexhaustive` variant; on every publicly constructible variant it
totally returns a wire string. -/
theorem c9_sort_key_into_total (k : ServerSortKey) :
    ServerSortKey.into k = none ↔ k = ServerSortKey.__Nonexhaustive := by
  cases k <;> decide

/-- C9 (witness): the characterisation at a publicly constructible
variant and at the hidden variant. -/
theorem c9_sort_key_into_total_witness :
    (ServerSortKey.into ServerSortKey.AccessIpv4 = none ↔
      ServerSortKey.AccessIpv4 = ServerSortKey.__Nonexhaustive) ∧
    (ServerSortKey.into ServerSortKey.__Nonexhaustive = none ↔
      ServerSortKey.__Nonexhaustive = ServerSortKey.__Nonexhaustive) :=
  ⟨c9_sort_key_into_total ServerSortKey.AccessIpv4,
   c9_sort_key_into_total ServerSortKey.__Nonexhaustive⟩

/-- C10: an absent status field deserialises to the default
`ServerStatus::Unknown`, an absent address-type field to
`AddressType::Unknown`, and either absence is indistinguishable at the
typed interface from an unrecognized present string. -/
theorem c10_absent_field_defaults :
    serverStatusField none = ServerStatus.Unknown ∧
    addrTypeField none = AddressType.Unknown ∧
    (∀ s, s ∉ knownServerStatusStrings →
      serverStatusField (some s) = serverStatusField none) ∧
    (∀ s, s ∉ knownAddressTypeStrings →
      addrTypeField (some s) = addrTypeField none) := by
  refine ⟨rfl, rfl, fun s h => ?_, fun s h => ?_⟩
  · simp [serverStatusField, de_server_status_unrecognized h,
      ServerStatus.default]
  · simp [addrTypeField, de_address_type_unrecognized h,
      AddressType.default]

/- ===================== claim theorems: http.rs ===================== -/

/-- C1: the body source is read at most once per request.  (1) Once the
accumulator is stored, a progress step never polls the inner response
(zero inner polls, zero response reads) and never restarts accumulation
(the new accumulator extends the old buffer).  (2) Over any driven run the
transport response is consumed at most once.  (3) A terminal step leaves
the state settled, and (4) polling a settled state reads nothing from the
transport (no response read, no body-stream read) and stays settled — so
repeated progress steps after the terminal outcome never re-read the
transport. -/
theorem c1_single_read :
    (∀ (T : Type) (parse : List Nat → Except ApiError T) (s : ApiResult)
       (c : Concat2), s.body = some c →
       (ApiResult.poll parse s).2.2.innerPolls = 0 ∧
       (ApiResult.poll parse s).2.2.respReads = 0 ∧
       ∃ c' t, (ApiResult.poll parse s).1.body = some c' ∧
         c'.acc = c.acc ++ t) ∧
    (∀ (T : Type) (parse : List Nat → Except ApiError T) (n : Nat)
       (s : ApiResult), (drive parse n s).2.2.respReads ≤ 1) ∧
    (∀ (T : Type) (parse : List Nat → Except ApiError T) (s : ApiResult),
       isTerminal ((ApiResult.poll parse s).2.1) = true →
       settled ((ApiResult.poll parse s).1)) ∧
    (∀ (T : Type) (parse : List Nat → Except ApiError T) (s : ApiResult),
       settled s →
       (ApiResult.poll parse s).2.2.respReads = 0 ∧
       (ApiResult.poll parse s).2.2.bodyReads = 0 ∧
       settled ((ApiResult.poll parse s).1)) := by
  refine ⟨?_, ?_, ?_, ?_⟩
  · intro T parse s c hb
    rcases s with ⟨inner, body⟩
    simp only at hb
    subst hb
    rw [ApiResult.poll_some]
    obtain ⟨t, ht⟩ := Concat2.poll_acc c
    exact ⟨rfl, rfl, (Concat2.poll c).1, t, by simp [pollBody_state], ht⟩
  · intro T parse n s
    have h := drive_respBound parse n s
    have h2 : respBound s ≤ 1 := by unfold respBound; split <;> omega
    omega
  · intro T parse s hterm
    rcases s with ⟨⟨⟨p, res, d⟩⟩, body⟩
    cases body with
    | some c =>
      rw [ApiResult.poll_some] at hterm ⊢
      simp only at hterm
      have hfin : ((Concat2.poll c).1).fin.isSome = true := by
        apply Concat2.poll_terminal_fin
        cases h : (Concat2.poll c).2.1 with
        | notReady =>
          exfalso
          have hb2 := (pollBody_notReady parse ⟨⟨p, res, d⟩⟩ c).mpr h
          rw [hb2] at hterm
          simp [isTerminal] at hterm
        | ready b => simp [isTerminal]
        | error e => simp [isTerminal]
      exact Or.inr ⟨(Concat2.poll c).1, by simp [pollBody_state], hfin⟩
    | none =>
      cases p with
      | succ q =>
        have hpoll : (ApiResponse.mk ⟨q + 1, res, d⟩).poll =
            (⟨⟨q, res, d⟩⟩, Poll.notReady, 0) := by
          simp [ApiResponse.poll, FutureResponse.poll]
        rw [ApiResult.poll_none_notReady parse _ _ _ hpoll] at hterm
        simp [isTerminal] at hterm
      | zero =>
        cases res with
        | error e =>
          have hpoll : (ApiResponse.mk ⟨0, Except.error e, d⟩).poll =
              (⟨⟨0, Except.error e, true⟩⟩,
               Poll.error (ApiError.TransportError e),
               if d then 0 else 1) := by
            simp [ApiResponse.poll, FutureResponse.poll]
          rw [ApiResult.poll_none_error parse _ _ _ _ hpoll]
          exact Or.inl ⟨rfl, rfl, rfl, fun r h => by simp at h⟩
        | ok resp =>
          by_cases hs : isSuccess resp.status
          · have hpoll : (ApiResponse.mk ⟨0, Except.ok resp, d⟩).poll =
                (⟨⟨0, Except.ok resp, true⟩⟩, Poll.ready resp,
                 if d then 0 else 1) := by
              simp [ApiResponse.poll, FutureResponse.poll, hs]
            rw [ApiResult.poll_none_ready parse _ _ _ _ hpoll] at hterm ⊢
            simp only at hterm
            have hfin : ((Concat2.poll
                ⟨resp.bodyScript, [], none⟩).1).fin.isSome = true := by
              apply Concat2.poll_terminal_fin
              cases h : (Concat2.poll ⟨resp.bodyScript, [], none⟩).2.1 with
              | notReady =>
                exfalso
                have hb2 := (pollBody_notReady parse
                  ⟨⟨0, Except.ok resp, true⟩⟩ _).mpr h
                rw [hb2] at hterm
                simp [isTerminal] at hterm
              | ready b => simp [isTerminal]
              | error e => simp [isTerminal]
            exact Or.inr ⟨(Concat2.poll ⟨resp.bodyScript, [], none⟩).1,
              by simp [pollBody_state], hfin⟩
          · simp only [Bool.not_eq_true] at hs
            have hpoll : (ApiResponse.mk ⟨0, Except.ok resp, d⟩).poll =
                (⟨⟨0, Except.ok resp, true⟩⟩,
                 Poll.error (ApiError.HttpError resp.status resp),
                 if d then 0 else 1) := by
              simp [ApiResponse.poll, FutureResponse.poll, hs]
            rw [ApiResult.poll_none_error parse _ _ _ _ hpoll]
            exact Or.inl ⟨rfl, rfl, rfl, fun r h => by cases h; exact hs⟩
  · intro T parse s hset
    rcases hset with ⟨hb, hp, hd, hres⟩ | ⟨c, hb, hfin⟩
    · rcases s with ⟨⟨⟨p, res, d⟩⟩, body⟩
      simp only at hb hp hd hres
      subst hb
      subst hp
      subst hd
      cases res with
      | error e =>
        have hpoll : (ApiResponse.mk ⟨0, Except.error e, true⟩).poll =
            (⟨⟨0, Except.error e, true⟩⟩,
             Poll.error (ApiError.TransportError e), 0) := by
          simp [ApiResponse.poll, FutureResponse.poll]
        rw [ApiResult.poll_none_error parse _ _ _ _ hpoll]
        exact ⟨rfl, rfl, Or.inl ⟨rfl, rfl, rfl, fun r h => by simp at h⟩⟩
      | ok resp =>
        have hsf : isSuccess resp.status = false := hres resp rfl
        have hpoll : (ApiResponse.mk ⟨0, Except.ok resp, true⟩).poll =
            (⟨⟨0, Except.ok resp, true⟩⟩,
             Poll.error (ApiError.HttpError resp.status resp), 0) := by
          simp [ApiResponse.poll, FutureResponse.poll, hsf]
        rw [ApiResult.poll_none_error parse _ _ _ _ hpoll]
        exact ⟨rfl, rfl,
          Or.inl ⟨rfl, rfl, rfl, fun r h => by cases h; exact hsf⟩⟩
    · rcases s with ⟨inner, body⟩
      simp only at hb
      subst hb
      rw [ApiResult.poll_some]
      obtain ⟨hst, hrd, hterm2⟩ := Concat2.poll_settled c hfin
      refine ⟨rfl, ?_,
        Or.inr ⟨(Concat2.poll c).1, by simp [pollBody_state], ?_⟩⟩
      · show (pollBody parse inner c).2.2.1 = 0
        rw [pollBody_reads parse inner c, hrd]
      · rw [hst]
        exact hfin

/-- C1 (witness): part 1 at a concrete state holding an accumulator, and
part 4 at a concrete settled error state. -/
theorem c1_single_read_witness :
    ((ApiResult.poll lenParse ⟨⟨⟨0, Except.ok ⟨200, []⟩, true⟩⟩,
        some ⟨[], [7], none⟩⟩).2.2.innerPolls = 0 ∧
     (ApiResult.poll lenParse ⟨⟨⟨0, Except.ok ⟨200, []⟩, true⟩⟩,
        some ⟨[], [7], none⟩⟩).2.2.respReads = 0 ∧
     ∃ c' t, (ApiResult.poll lenParse ⟨⟨⟨0, Except.ok ⟨200, []⟩, true⟩⟩,
        some ⟨[], [7], none⟩⟩).1.body = some c' ∧
       c'.acc = (Concat2.mk [] [7] none).acc ++ t) ∧
    ((ApiResult.poll lenParse
        ⟨⟨⟨0, Except.error ⟨3⟩, true⟩⟩, none⟩).2.2.respReads = 0 ∧
     (ApiResult.poll lenParse
        ⟨⟨⟨0, Except.error ⟨3⟩, true⟩⟩, none⟩).2.2.bodyReads = 0 ∧
     settled ((ApiResult.poll lenParse
        ⟨⟨⟨0, Except.error ⟨3⟩, true⟩⟩, none⟩).1)) :=
  ⟨c1_single_read.1 Nat lenParse
     ⟨⟨⟨0, Except.ok ⟨200, []⟩, true⟩⟩, some ⟨[], [7], none⟩⟩
     ⟨[], [7], none⟩ rfl,
   c1_single_read.2.2.2 Nat lenParse
     ⟨⟨⟨0, Except.error ⟨3⟩, true⟩⟩, none⟩
     (Or.inl ⟨rfl, rfl, rfl, fun r h => by simp at h⟩)⟩

/-- C2: a non-success status short-circuits on the step where the
response arrives — for any fuel the run consumes no body-stream event and
never invokes the parser, the accumulator is never created, and as soon
as the fuel covers the guard's pending steps the outcome is the
`HttpError` (spec: StatusFailure) carrying the status code and the raw
response. -/
theorem c2_status_short_circuit :
    ∀ (T : Type) (parse : List Nat → Except ApiError T) (status : Nat)
      (script : List BodyEv) (p n : Nat),
      isSuccess status = false →
      (drive parse n (ApiResult.new
        ⟨⟨p, Except.ok ⟨status, script⟩, false⟩⟩)).2.2.bodyReads = 0 ∧
      (drive parse n (ApiResult.new
        ⟨⟨p, Except.ok ⟨status, script⟩, false⟩⟩)).2.2.parserCalls = 0 ∧
      ((drive parse n (ApiResult.new
        ⟨⟨p, Except.ok ⟨status, script⟩, false⟩⟩)).1).body = none ∧
      (p < n → (drive parse n (ApiResult.new
        ⟨⟨p, Except.ok ⟨status, script⟩, false⟩⟩)).2.1 =
        Poll.error (ApiError.HttpError status ⟨status, script⟩)) := by
  intro T parse status script p n hs
  induction n generalizing p with
  | zero => simp [drive, ApiResult.new]
  | succ m ih =>
    cases p with
    | zero =>
      have hpoll : (ApiResponse.mk
          ⟨0, Except.ok ⟨status, script⟩, false⟩).poll =
          (⟨⟨0, Except.ok ⟨status, script⟩, true⟩⟩,
           Poll.error (ApiError.HttpError status ⟨status, script⟩), 1) := by
        simp [ApiResponse.poll, FutureResponse.poll, hs]
      have hstep := ApiResult.poll_none_error parse _ _ _ _ hpoll
      simp only [ApiResult.new]
      simp [drive, hstep]
    | succ q =>
      have hpoll : (ApiResponse.mk
          ⟨q + 1, Except.ok ⟨status, script⟩, false⟩).poll =
          (⟨⟨q, Except.ok ⟨status, script⟩, false⟩⟩, Poll.notReady, 0) := by
        simp [ApiResponse.poll, FutureResponse.poll]
      have hstep := ApiResult.poll_none_notReady parse _ _ _ hpoll
      have hi := ih q
      simp only [ApiResult.new] at hi ⊢
      rcases hd : drive parse m
        (⟨⟨⟨q, Except.ok ⟨status, script⟩, false⟩⟩, none⟩ : ApiResult)
        with ⟨s'', r', e'⟩
      rw [hd] at hi
      simp only at hi
      simp [drive, hstep, hd, Effects.add]
      exact ⟨hi.1, hi.2.1, hi.2.2.1, fun hlt => hi.2.2.2 (by omega)⟩

/-- C2 (witness): status 500 with a valid body available — the outcome is
`HttpError 500` and no body byte is requested, no parser invoked. -/
theorem c2_status_short_circuit_witness :
    (drive lenParse 1 (ApiResult.new
      ⟨⟨0, Except.ok ⟨500, [BodyEv.chunk [1, 2, 3]]⟩,
        false⟩⟩)).2.2.bodyReads = 0 ∧
    (drive lenParse 1 (ApiResult.new
      ⟨⟨0, Except.ok ⟨500, [BodyEv.chunk [1, 2, 3]]⟩,
        false⟩⟩)).2.2.parserCalls = 0 ∧
    ((drive lenParse 1 (ApiResult.new
      ⟨⟨0, Except.ok ⟨500, [BodyEv.chunk [1, 2, 3]]⟩,
        false⟩⟩)).1).body = none ∧
    (0 < 1 → (drive lenParse 1 (ApiResult.new
      ⟨⟨0, Except.ok ⟨500, [BodyEv.chunk [1, 2, 3]]⟩, false⟩⟩)).2.1 =
      Poll.error (ApiError.HttpError 500
        ⟨500, [BodyEv.chunk [1, 2, 3]]⟩)) :=
  c2_status_short_circuit Nat lenParse 500 [BodyEv.chunk [1, 2, 3]] 0 1
    (by decide)

/-- C3: a completed raw response passes through the guard unchanged
exactly when its status is in the success range 2xx; every other status —
redirects included — yields `HttpError` carrying the numeric status code
and the raw response. -/
theorem c3_status_guard (resp : Response) (d : Bool) :
    (isSuccess resp.status = true ↔
      (200 ≤ resp.status ∧ resp.status < 300)) ∧
    ((ApiResponse.poll ⟨⟨0, Except.ok resp, d⟩⟩).2.1 = Poll.ready resp ↔
      isSuccess resp.status = true) ∧
    (isSuccess resp.status = false →
      (ApiResponse.poll ⟨⟨0, Except.ok resp, d⟩⟩).2.1 =
        Poll.error (ApiError.HttpError resp.status resp)) := by
  refine ⟨by simp [isSuccess], ?_, ?_⟩
  · by_cases hs : isSuccess resp.status
    · simp [ApiResponse.poll, FutureResponse.poll, hs]
    · simp only [Bool.not_eq_true] at hs
      simp [ApiResponse.poll, FutureResponse.poll, hs]
  · intro hs
    simp [ApiResponse.poll, FutureResponse.poll, hs]

/-- C3 (witness): the redirect status 302 is rejected with
`HttpError 302` carrying the raw response. -/
theorem c3_status_guard_witness :
    (ApiResponse.poll ⟨⟨0, Except.ok ⟨302, []⟩, false⟩⟩).2.1 =
      Poll.error (ApiError.HttpError 302 ⟨302, []⟩) :=
  (c3_status_guard ⟨302, []⟩ false).2.2 (by decide)

/-- C4: on a step where the guarded response resolves to an error
(transport failure or status failure), the error is propagated on that
same step and no accumulation handle is created — the body field is still
absent afterwards. -/
theorem c4_error_no_accumulator :
    ∀ (T : Type) (parse : List Nat → Except ApiError T) (s : ApiResult)
      (inner' : ApiResponse) (err : ApiError) (k : Nat),
      s.body = none → s.inner.poll = (inner', Poll.error err, k) →
      ApiResult.poll parse s =
        (⟨inner', none⟩, Poll.error err, ⟨1, k, 0, 0⟩) := by
  intro T parse s inner' err k hb hp
  rcases s with ⟨a, body⟩
  simp only at hb hp
  subst hb
  exact ApiResult.poll_none_error parse a inner' err k hp

/-- C4 (witness): a concrete transport failure and a concrete status
failure, each propagated on the first step with the body still absent. -/
theorem c4_error_no_accumulator_witness :
    ApiResult.poll lenParse ⟨⟨⟨0, Except.error ⟨7⟩, false⟩⟩, none⟩ =
      (⟨⟨⟨0, Except.error ⟨7⟩, true⟩⟩, none⟩,
       Poll.error (ApiError.TransportError ⟨7⟩), ⟨1, 1, 0, 0⟩) ∧
    ApiResult.poll lenParse
      ⟨⟨⟨0, Except.ok ⟨404, [BodyEv.chunk [2]]⟩, false⟩⟩, none⟩ =
      (⟨⟨⟨0, Except.ok ⟨404, [BodyEv.chunk [2]]⟩, true⟩⟩, none⟩,
       Poll.error (ApiError.HttpError 404 ⟨404, [BodyEv.chunk [2]]⟩),
       ⟨1, 1, 0, 0⟩) :=
  ⟨c4_error_no_accumulator Nat lenParse
     ⟨⟨⟨0, Except.error ⟨7⟩, false⟩⟩, none⟩
     ⟨⟨0, Except.error ⟨7⟩, true⟩⟩
     (ApiError.TransportError ⟨7⟩) 1 rfl (by decide),
   c4_error_no_accumulator Nat lenParse
     ⟨⟨⟨0, Except.ok ⟨404, [BodyEv.chunk [2]]⟩, false⟩⟩, none⟩
     ⟨⟨0, Except.ok ⟨404, [BodyEv.chunk [2]]⟩, true⟩⟩
     (ApiError.HttpError 404 ⟨404, [BodyEv.chunk [2]]⟩) 1 rfl (by decide)⟩

/-- C5: the parser is invoked at most once per driven run, and a run over
a success response with enough fuel terminates with exactly the parse of
the complete accumulated body (the concatenation of all chunks) — parser
success becomes the terminal typed value, parser failure the terminal
error, propagated verbatim. -/
theorem c5_parse_once :
    (∀ (T : Type) (parse : List Nat → Except ApiError T) (n : Nat)
       (s : ApiResult), (drive parse n s).2.2.parserCalls ≤ 1) ∧
    (∀ (T : Type) (parse : List Nat → Except ApiError T) (status : Nat)
       (script : List BodyEv) (p n : Nat),
       isSuccess status = true → noErr script = true →
       p + countNR script + 1 ≤ n →
       (drive parse n (ApiResult.new
         ⟨⟨p, Except.ok ⟨status, script⟩, false⟩⟩)).2.1 =
         pollOut parse (joinChunks script)) :=
  ⟨fun _ parse n s => drive_parserCalls parse n s,
   fun _ parse status script p n hs herr hn =>
     drive_full_body parse status script p n hs herr hn⟩

/-- C5 (witness): a chunked 200 response parsed from the full buffer
(success), and a 200 response whose body the strict parser rejects
(failure propagated as the parser's own error). -/
theorem c5_parse_once_witness :
    (drive strictParse 4 (ApiResult.new ⟨⟨1, Except.ok
      ⟨200, [BodyEv.chunk [1], BodyEv.notReady, BodyEv.chunk [2, 3]]⟩,
      false⟩⟩)).2.2.parserCalls ≤ 1 ∧
    (drive strictParse 4 (ApiResult.new ⟨⟨1, Except.ok
      ⟨200, [BodyEv.chunk [1], BodyEv.notReady, BodyEv.chunk [2, 3]]⟩,
      false⟩⟩)).2.1 = pollOut strictParse
        (joinChunks [BodyEv.chunk [1], BodyEv.notReady,
          BodyEv.chunk [2, 3]]) ∧
    (drive strictParse 2 (ApiResult.new ⟨⟨0, Except.ok
      ⟨200, [BodyEv.chunk [9]]⟩, false⟩⟩)).2.1 =
      pollOut strictParse (joinChunks [BodyEv.chunk [9]]) :=
  ⟨c5_parse_once.1 Nat strictParse 4 _,
   c5_parse_once.2 Nat strictParse 200
     [BodyEv.chunk [1], BodyEv.notReady, BodyEv.chunk [2, 3]] 1 4
     (by decide) (by decide) (by decide),
   c5_parse_once.2 Nat strictParse 200 [BodyEv.chunk [9]] 0 2
     (by decide) (by decide) (by decide)⟩

/-- C8: on the step where the guard resolves successfully, the body
source is detached, the accumulation handle is built and driven within
that same step: the resulting state holds the stepped accumulator, the
step's outcome is exactly the accumulator's outcome (parsed when the body
completed), and a not-ready outcome can only come from the accumulator
itself, never from the mere state switch. -/
theorem c8_same_step_accumulation :
    ∀ (T : Type) (parse : List Nat → Except ApiError T) (s : ApiResult)
      (inner' : ApiResponse) (resp : Response) (k : Nat),
      s.body = none → s.inner.poll = (inner', Poll.ready resp, k) →
      (ApiResult.poll parse s).1.body =
        some ((Concat2.poll ⟨resp.bodyScript, [], none⟩).1) ∧
      (ApiResult.poll parse s).2.1 =
        (match (Concat2.poll ⟨resp.bodyScript, [], none⟩).2.1 with
         | Poll.notReady => Poll.notReady
         | Poll.error e => Poll.error (ApiError.TransportError e)
         | Poll.ready b => pollOut parse b) ∧
      ((ApiResult.poll parse s).2.1 = Poll.notReady →
        (Concat2.poll ⟨resp.bodyScript, [], none⟩).2.1 = Poll.notReady) := by
  intro T parse s inner' resp k hb hp
  rcases s with ⟨a, body⟩
  simp only at hb hp
  subst hb
  rw [ApiResult.poll_none_ready parse a inner' resp k hp]
  refine ⟨by simp [pollBody_state], ?_, ?_⟩
  · show (pollBody parse inner' ⟨resp.bodyScript, [], none⟩).2.1 = _
    rcases h : Concat2.poll ⟨resp.bodyScript, [], none⟩ with ⟨c', r, b⟩
    cases r with
    | notReady => simp [pollBody, h]
    | error e => simp [pollBody, h]
    | ready chunk => cases hpp : parse chunk <;> simp [pollBody, h, hpp, pollOut]
  · intro hnr
    exact (pollBody_notReady parse inner' _).mp hnr

/-- C8 (witness): a success response with an already-exhausted (empty)
body source terminates on the very step where the guard resolves — no
wasted not-ready step for the state switch. -/
theorem c8_same_step_accumulation_witness :
    (ApiResult.poll lenParse
      (ApiResult.new ⟨⟨0, Except.ok ⟨204, []⟩, false⟩⟩)).1.body =
      some ((Concat2.poll ⟨[], [], none⟩).1) ∧
    (ApiResult.poll lenParse
      (ApiResult.new ⟨⟨0, Except.ok ⟨204, []⟩, false⟩⟩)).2.1 =
      (match (Concat2.poll ⟨[], [], none⟩).2.1 with
       | Poll.notReady => Poll.notReady
       | Poll.error e => Poll.error (ApiError.TransportError e)
       | Poll.ready b => pollOut lenParse b) ∧
    ((ApiResult.poll lenParse
      (ApiResult.new ⟨⟨0, Except.ok ⟨204, []⟩, false⟩⟩)).2.1 =
        Poll.notReady →
      (Concat2.poll ⟨[], [], none⟩).2.1 = Poll.notReady) :=
  c8_same_step_accumulation Nat lenParse
    (ApiResult.new ⟨⟨0, Except.ok ⟨204, []⟩, false⟩⟩)
    ⟨⟨0, Except.ok ⟨204, []⟩, true⟩⟩ ⟨204, []⟩ 1 rfl (by decide)

/-- C10 (witness): the indistinguishability at the concrete unrecognized
string `"TOTALLY_NEW_STATE"`, plus both absent-field defaults. -/
theorem c10_absent_field_defaults_witness :
    serverStatusField none = ServerStatus.Unknown ∧
    addrTypeField none = AddressType.Unknown ∧
    serverStatusField (some "TOTALLY_NEW_STATE") = serverStatusField none ∧
    addrTypeField (some "TOTALLY_NEW_STATE") = addrTypeField none :=
  ⟨c10_absent_field_defaults.1, c10_absent_field_defaults.2.1,
   c10_absent_field_defaults.2.2.1 "TOTALLY_NEW_STATE" (by decide),
   c10_absent_field_defaults.2.2.2 "TOTALLY_NEW_STATE" (by decide)⟩

end OpenStack
